import Mathlib

/-!
# Verification of the `bloomfilter` crate

Shallow embedding of the three source modules of the repository:

* `src/base.rs`    — `BloomHash`, `BloomFilter` (bit array, `add_hash`, `add`, `contains`);
* `src/shift.rs`   — the `ShiftCondition` trait and its two implementations
  `ShiftByDuration` and `ShiftByInsertions`;
* `src/rolling.rs` — `RollingBloomFilter` (two slots, dual write, shift, oldest-slot read).

The 128-bit hash itself comes from the external `gxhash` crate and is not part of this
repository; every definition and theorem is therefore parametric in a function
`hash128 : Bytes → Int → Nat` standing for `gxhash::gxhash128(bytes, seed)`.  The source
calls it as `gxhash::gxhash128(value.as_ref(), 0)`, i.e. always with seed `0`; the
embedding reproduces that call exactly.  `Instant`-based wall-clock time in
`ShiftByDuration` is embedded by passing the current instant explicitly as a natural
number to the operations that read the clock.
-/

set_option autoImplicit false

namespace Bloomfilter

/-- A byte sequence (`&[u8]` / `impl AsRef<[u8]>` in the source). -/
abbrev Bytes := List Nat

/-! ## `src/base.rs` -/

/-- `pub const SEED: u128 = 127` — declared in `base.rs` (and never read anywhere). -/
def SEED : Nat := 127

/-- `BloomHash` from `base.rs`: the ordered record of `N` bit-array indices derived
from one input.  The type-level parameters `N` and `S` of the Rust struct are passed
explicitly to the operations below. -/
structure BloomHash where
  hashes : List Nat
deriving DecidableEq

/-- `impl From<T> for BloomHash<N, S>` from `base.rs`:
`let hashed = gxhash::gxhash128(value.as_ref(), 0); let mask = (1 << (128 / N)) - 1;`
then index `i` of the record is `(hashed >> (i * (128 / N))) & mask`.
Note the seed argument passed to the hash is the literal `0`; the parameter `S`
does not occur in the body, exactly as in the source. -/
def bloomHashFrom (hash128 : Bytes → Int → Nat) (N : Nat) (S : Int) (value : Bytes) :
    BloomHash :=
  let hashed := hash128 value 0
  let mask := (1 <<< (128 / N)) - 1
  { hashes := (List.range N).map fun i => (hashed >>> (i * (128 / N))) &&& mask }

/-- `BloomFilter` from `base.rs`: just the boolean bit array `bits: Box<[bool]>`. -/
structure BloomFilter where
  bits : List Bool
deriving DecidableEq

/-- `BloomFilter::new`: `vec![false; 1 << (128 / N)]`. -/
def BloomFilter.new (N : Nat) : BloomFilter :=
  { bits := List.replicate (1 <<< (128 / N)) false }

/-- `BloomFilter::add_hash`: set the bit at every index of the record to `true`. -/
def BloomFilter.add_hash (f : BloomFilter) (h : BloomHash) : BloomFilter :=
  { bits := h.hashes.foldl (fun bs i => bs.set i true) f.bits }

/-- `BloomFilter::add`: hash the value (with the filter's `N` and `S`) and `add_hash` it. -/
def BloomFilter.add (hash128 : Bytes → Int → Nat) (N : Nat) (S : Int)
    (f : BloomFilter) (value : Bytes) : BloomFilter :=
  f.add_hash (bloomHashFrom hash128 N S value)

/-- `BloomFilter::contains`: recompute the record — via `BloomHash<N>`, i.e. with the
default seed parameter `0` regardless of the filter's `S` — and test that all its bits
are set. -/
def BloomFilter.contains (hash128 : Bytes → Int → Nat) (N : Nat)
    (f : BloomFilter) (value : Bytes) : Bool :=
  (bloomHashFrom hash128 N 0 value).hashes.all fun i => f.bits.getD i false

/-- Well-formedness: the bit array has the length `BloomFilter::new` allocates.
Every filter the program ever builds satisfies it. -/
def BloomFilter.Wf (N : Nat) (f : BloomFilter) : Prop :=
  f.bits.length = 1 <<< (128 / N)

/-! ## `src/shift.rs` -/

/-- `DEFAULT_SHIFT_DURATION`: 3600 seconds. -/
def DEFAULT_SHIFT_DURATION : Nat := 3600

/-- `DEFAULT_SHIFT_INSERTIONS`: `1 << 12`. -/
def DEFAULT_SHIFT_INSERTIONS : Nat := 1 <<< 12

/-- `ShiftByDuration` from `shift.rs`.  `last_shift: Instant` is embedded as an
absolute time point (a natural number). -/
structure ShiftByDuration where
  duration : Nat
  last_shift : Nat
deriving DecidableEq

/-- `ShiftByDuration::new(duration)`, which records `Instant::now()` — the construction
instant is passed explicitly. -/
def ShiftByDuration.new (now : Nat) (duration : Nat) : ShiftByDuration :=
  { duration := duration, last_shift := now }

/-- `ShiftByInsertions` from `shift.rs`. -/
structure ShiftByInsertions where
  insertions : Nat
  insertion_count : Nat
deriving DecidableEq

/-- `ShiftByInsertions::new(limit)`. -/
def ShiftByInsertions.new (limit : Nat) : ShiftByInsertions :=
  { insertions := limit, insertion_count := 0 }

/-- The `ShiftCondition` trait: a record of its three required methods over the
condition state `C`.  Rust's `&mut self` methods become state-passing functions. -/
structure ShiftOps (C : Type) where
  should_shift : C → Bool
  do_shift : C → C
  increment : C → C

/-- The trait's provided method `should_shift_after_increment`: increment, then
report `should_shift` on the incremented state. -/
def ShiftOps.should_shift_after_increment {C : Type} (ops : ShiftOps C) (c : C) :
    C × Bool :=
  let c2 := ops.increment c
  (c2, ops.should_shift c2)

/-- `impl ShiftCondition for ShiftByDuration`:
`should_shift` is `last_shift.elapsed() > duration` (strict), `do_shift` resets
`last_shift` to `Instant::now()`, `increment` does nothing.  The current instant
`now` is the explicit clock parameter; `elapsed()` is `now - last_shift`. -/
def ShiftByDuration.ops (now : Nat) : ShiftOps ShiftByDuration where
  should_shift := fun c => decide (now - c.last_shift > c.duration)
  do_shift := fun c => { c with last_shift := now }
  increment := fun c => c

/-- `impl ShiftCondition for ShiftByInsertions`:
`should_shift` is `insertion_count >= insertions`, `do_shift` resets the counter to 0,
`increment` adds one to the counter. -/
def ShiftByInsertions.ops : ShiftOps ShiftByInsertions where
  should_shift := fun c => decide (c.insertion_count ≥ c.insertions)
  do_shift := fun c => { c with insertion_count := 0 }
  increment := fun c => { c with insertion_count := c.insertion_count + 1 }

/-! ## `src/rolling.rs` -/

/-- `RollingBloomFilter`: the pair of slots (`filters[0]`, `filters[1]`) and the
shift-condition state. -/
structure RollingBloomFilter (C : Type) where
  filters : BloomFilter × BloomFilter
  shift_condition : C
deriving DecidableEq

/-- `RollingBloomFilter::new(shift_condition)`: two fresh filters. -/
def RollingBloomFilter.new (N : Nat) {C : Type} (c : C) : RollingBloomFilter C :=
  { filters := (BloomFilter.new N, BloomFilter.new N), shift_condition := c }

/-- `RollingBloomFilter::shift`: `do_shift` the condition, replace slot 0 with a fresh
filter, then swap the slots — so the old slot 1 becomes slot 0 and the fresh filter
becomes slot 1. -/
def RollingBloomFilter.shift (N : Nat) {C : Type} (ops : ShiftOps C)
    (r : RollingBloomFilter C) : RollingBloomFilter C :=
  { filters := (r.filters.2, BloomFilter.new N),
    shift_condition := ops.do_shift r.shift_condition }

/-- `RollingBloomFilter::add`: hash once, `add_hash` into both slots, then
`should_shift_after_increment`; if it reports true, `shift`. -/
def RollingBloomFilter.add (hash128 : Bytes → Int → Nat) (N : Nat) (S : Int)
    {C : Type} (ops : ShiftOps C) (r : RollingBloomFilter C) (value : Bytes) :
    RollingBloomFilter C :=
  let h := bloomHashFrom hash128 N S value
  let p := ops.should_shift_after_increment r.shift_condition
  let r2 : RollingBloomFilter C :=
    { filters := (r.filters.1.add_hash h, r.filters.2.add_hash h),
      shift_condition := p.1 }
  if p.2 then r2.shift N ops else r2

/-- `RollingBloomFilter::contains`: test only slot 0, the oldest filter. -/
def RollingBloomFilter.contains (hash128 : Bytes → Int → Nat) (N : Nat) {C : Type}
    (r : RollingBloomFilter C) (value : Bytes) : Bool :=
  r.filters.1.contains hash128 N value

/-- Well-formedness of a rolling filter: both slots are well formed. -/
def RollingBloomFilter.Wf (N : Nat) {C : Type} (r : RollingBloomFilter C) : Prop :=
  r.filters.1.Wf N ∧ r.filters.2.Wf N

/-! ## Operation sequences

The temporal claims quantify over "any further sequence of calls"; these small
inductive types enumerate the public mutating calls. -/

/-- A public mutating call on a fixed `BloomFilter`: `add` of a value, or `add_hash`
of a record. -/
inductive FixedOp where
  | addValue (v : Bytes)
  | addRecord (h : BloomHash)

/-- Apply one fixed-filter call. -/
def BloomFilter.applyOp (hash128 : Bytes → Int → Nat) (N : Nat) (S : Int)
    (f : BloomFilter) : FixedOp → BloomFilter
  | .addValue v => f.add hash128 N S v
  | .addRecord h => f.add_hash h

/-- Apply a sequence of fixed-filter calls, oldest first. -/
def BloomFilter.applyOps (hash128 : Bytes → Int → Nat) (N : Nat) (S : Int)
    (f : BloomFilter) (l : List FixedOp) : BloomFilter :=
  l.foldl (BloomFilter.applyOp hash128 N S) f

/-- A public mutating call on a `RollingBloomFilter`: `add` of a value, or an
explicit `shift`. -/
inductive RollOp where
  | addValue (v : Bytes)
  | doShift

/-- Apply one rolling-filter call. -/
def RollingBloomFilter.applyOp (hash128 : Bytes → Int → Nat) (N : Nat) (S : Int)
    {C : Type} (ops : ShiftOps C) (r : RollingBloomFilter C) :
    RollOp → RollingBloomFilter C
  | .addValue v => r.add hash128 N S ops v
  | .doShift => r.shift N ops

/-- Apply a sequence of rolling-filter calls, oldest first. -/
def RollingBloomFilter.applyOps (hash128 : Bytes → Int → Nat) (N : Nat) (S : Int)
    {C : Type} (ops : ShiftOps C) (r : RollingBloomFilter C) (l : List RollOp) :
    RollingBloomFilter C :=
  l.foldl (RollingBloomFilter.applyOp hash128 N S ops) r

/-- Apply a sequence of `add` calls, oldest first. -/
def RollingBloomFilter.applyAdds (hash128 : Bytes → Int → Nat) (N : Nat) (S : Int)
    {C : Type} (ops : ShiftOps C) (r : RollingBloomFilter C) (vs : List Bytes) :
    RollingBloomFilter C :=
  vs.foldl (RollingBloomFilter.add hash128 N S ops) r

/-- The condition state after one `add` call (increment, then reset iff the shift
fired). -/
def condStep {C : Type} (ops : ShiftOps C) (c : C) : C :=
  let p := ops.should_shift_after_increment c
  if p.2 then ops.do_shift p.1 else p.1

/-- Whether an `add` call performed on condition state `c` fires a shift. -/
def condFires {C : Type} (ops : ShiftOps C) (c : C) : Bool :=
  (ops.should_shift_after_increment c).2

/-- The condition state after `n` consecutive `add` calls. -/
def condIter {C : Type} (ops : ShiftOps C) : Nat → C → C
  | 0, c => c
  | n + 1, c => condIter ops n (condStep ops c)

/-- Number of shift events (fired by an `add`, or explicit `shift` calls) that a
sequence of rolling-filter calls performs, starting from condition state `c`. -/
def shiftEvents {C : Type} (ops : ShiftOps C) : C → List RollOp → Nat
  | _, [] => 0
  | c, .addValue _ :: t =>
      (if condFires ops c then 1 else 0) + shiftEvents ops (condStep ops c) t
  | c, .doShift :: t => 1 + shiftEvents ops (ops.do_shift c) t

/-- A concrete stand-in for the external 128-bit hash function, used to instantiate
the parametric theorems at closed inputs. -/
def hash0 : Bytes → Int → Nat := fun _ _ => 0

/-- `HoldsIn hash128 N v f` says every bit of `v`'s hash record is set in `f`; it is
the invariant behind the no-false-negative and retention claims, and is equivalent
to `f.contains` returning true for `v`. -/
def HoldsIn (hash128 : Bytes → Int → Nat) (N : Nat) (v : Bytes) (f : BloomFilter) :
    Prop :=
  ∀ i ∈ (bloomHashFrom hash128 N 0 v).hashes, f.bits.getD i false = true

/-- The bytes of `"hello"`, from the spec scenario. -/
def helloB : Bytes := [104, 101, 108, 108, 111]

/-- The bytes of `"world"`, from the spec scenario. -/
def worldB : Bytes := [119, 111, 114, 108, 100]

/-- The bytes of `"foo"`, from the spec scenario. -/
def fooB : Bytes := [102, 111, 111]

/-- The bytes of `"bar"`, from the spec scenario. -/
def barB : Bytes := [98, 97, 114]

/-! ## Bit-array lemmas -/

theorem length_set_true (l : List Bool) (j : Nat) :
    (l.set j true).length = l.length := by
  simp

theorem length_foldl_set (hs : List Nat) (l : List Bool) :
    (hs.foldl (fun bs i => bs.set i true) l).length = l.length := by
  induction hs generalizing l with
  | nil => rfl
  | cons a t ih => simpa using ih (l.set a true)

theorem getD_set_self (l : List Bool) (j : Nat) (h : j < l.length) :
    (l.set j true).getD j false = true := by
  induction l generalizing j with
  | nil => simp at h
  | cons a t ih =>
    cases j with
    | zero => simp
    | succ k =>
      have hk : k < t.length := by simpa using h
      simpa using ih k hk

theorem getD_set_mono (l : List Bool) (i j : Nat) (h : l.getD i false = true) :
    (l.set j true).getD i false = true := by
  induction l generalizing i j with
  | nil => simp at h
  | cons a t ih =>
    cases j with
    | zero =>
      cases i with
      | zero => simp
      | succ k => simpa using h
    | succ m =>
      cases i with
      | zero => simpa using h
      | succ k => simpa using ih k m (by simpa using h)

theorem getD_foldl_set_mono (hs : List Nat) (l : List Bool) (i : Nat)
    (h : l.getD i false = true) :
    (hs.foldl (fun bs j => bs.set j true) l).getD i false = true := by
  induction hs generalizing l with
  | nil => simpa using h
  | cons a t ih => simpa using ih (l.set a true) (getD_set_mono l i a h)

theorem getD_foldl_set_all (hs : List Nat) (l : List Bool) (i : Nat)
    (hi : i ∈ hs) (hb : ∀ j ∈ hs, j < l.length) :
    (hs.foldl (fun bs j => bs.set j true) l).getD i false = true := by
  induction hs generalizing l with
  | nil => simp at hi
  | cons a t ih =>
    rcases List.mem_cons.mp hi with rfl | hmem
    · exact getD_foldl_set_mono t (l.set i true) i
        (getD_set_self l i (hb i (List.mem_cons_self i t)))
    · refine ih (l.set a true) hmem ?_
      intro j hj
      simpa using hb j (List.mem_cons_of_mem a hj)

/-! ## Hash-record lemmas -/

theorem bloomHashFrom_seed (hash128 : Bytes → Int → Nat) (N : Nat) (S : Int)
    (value : Bytes) :
    bloomHashFrom hash128 N S value = bloomHashFrom hash128 N 0 value := rfl

theorem bloomHashFrom_length (hash128 : Bytes → Int → Nat) (N : Nat) (S : Int)
    (value : Bytes) :
    (bloomHashFrom hash128 N S value).hashes.length = N := by
  simp [bloomHashFrom]

theorem bloomHashFrom_lt (hash128 : Bytes → Int → Nat) (N : Nat) (S : Int)
    (value : Bytes) :
    ∀ i ∈ (bloomHashFrom hash128 N S value).hashes, i < 1 <<< (128 / N) := by
  intro i hi
  simp only [bloomHashFrom, List.mem_map, List.mem_range] at hi
  obtain ⟨k, hk, rfl⟩ := hi
  have h1 : (hash128 value 0 >>> (k * (128 / N))) &&& ((1 <<< (128 / N)) - 1) ≤
      (1 <<< (128 / N)) - 1 := Nat.and_le_right
  have h2 : 0 < 1 <<< (128 / N) := by
    rw [Nat.one_shiftLeft]
    exact Nat.pos_pow_of_pos _ (by norm_num)
  omega

/-! ## Fixed-filter lemmas -/

theorem BloomFilter.wf_new (N : Nat) : (BloomFilter.new N).Wf N := by
  simp [BloomFilter.new, BloomFilter.Wf]

theorem BloomFilter.wf_add_hash {N : Nat} {f : BloomFilter} (h : BloomHash)
    (hw : f.Wf N) : (f.add_hash h).Wf N := by
  unfold BloomFilter.Wf BloomFilter.add_hash at *
  simpa [length_foldl_set] using hw

theorem BloomFilter.length_add_hash (f : BloomFilter) (h : BloomHash) :
    (f.add_hash h).bits.length = f.bits.length := by
  simp [BloomFilter.add_hash, length_foldl_set]

theorem BloomFilter.contains_eq_all (hash128 : Bytes → Int → Nat) (N : Nat)
    (f : BloomFilter) (value : Bytes) :
    (f.contains hash128 N value = true) ↔
      ∀ i ∈ (bloomHashFrom hash128 N 0 value).hashes, f.bits.getD i false = true := by
  simp [BloomFilter.contains]

theorem BloomFilter.contains_add_hash_mono (hash128 : Bytes → Int → Nat) (N : Nat)
    (f : BloomFilter) (h : BloomHash) (value : Bytes)
    (hc : f.contains hash128 N value = true) :
    (f.add_hash h).contains hash128 N value = true := by
  rw [BloomFilter.contains_eq_all] at hc ⊢
  intro i hi
  exact getD_foldl_set_mono h.hashes f.bits i (hc i hi)

theorem BloomFilter.contains_add_hash_self (hash128 : Bytes → Int → Nat) (N : Nat)
    (S : Int) (f : BloomFilter) (value : Bytes) (hw : f.Wf N) :
    (f.add_hash (bloomHashFrom hash128 N S value)).contains hash128 N value = true := by
  rw [BloomFilter.contains_eq_all]
  intro i hi
  rw [bloomHashFrom_seed hash128 N S value]
  refine getD_foldl_set_all _ f.bits i hi ?_
  intro j hj
  have := bloomHashFrom_lt hash128 N 0 value j hj
  rw [BloomFilter.Wf] at hw
  omega

/-! ## Rolling-filter step lemmas -/

theorem RollingBloomFilter.shift_condition_shift (N : Nat) {C : Type}
    (ops : ShiftOps C) (r : RollingBloomFilter C) :
    (r.shift N ops).shift_condition = ops.do_shift r.shift_condition := rfl

theorem RollingBloomFilter.filters_shift (N : Nat) {C : Type}
    (ops : ShiftOps C) (r : RollingBloomFilter C) :
    (r.shift N ops).filters = (r.filters.2, BloomFilter.new N) := rfl

theorem RollingBloomFilter.shift_condition_add (hash128 : Bytes → Int → Nat)
    (N : Nat) (S : Int) {C : Type} (ops : ShiftOps C) (r : RollingBloomFilter C)
    (v : Bytes) :
    (r.add hash128 N S ops v).shift_condition = condStep ops r.shift_condition := by
  unfold RollingBloomFilter.add condStep
  by_cases h : (ops.should_shift_after_increment r.shift_condition).2 <;>
    simp [h, RollingBloomFilter.shift]

theorem RollingBloomFilter.filters_add (hash128 : Bytes → Int → Nat)
    (N : Nat) (S : Int) {C : Type} (ops : ShiftOps C) (r : RollingBloomFilter C)
    (v : Bytes) :
    (r.add hash128 N S ops v).filters =
      if condFires ops r.shift_condition then
        (r.filters.2.add_hash (bloomHashFrom hash128 N S v), BloomFilter.new N)
      else
        (r.filters.1.add_hash (bloomHashFrom hash128 N S v),
         r.filters.2.add_hash (bloomHashFrom hash128 N S v)) := by
  unfold RollingBloomFilter.add condFires
  by_cases h : (ops.should_shift_after_increment r.shift_condition).2 <;>
    simp [h, RollingBloomFilter.shift]

theorem RollingBloomFilter.wf_of_new (N : Nat) {C : Type} (c : C) :
    (RollingBloomFilter.new N c).Wf N :=
  ⟨BloomFilter.wf_new N, BloomFilter.wf_new N⟩

theorem RollingBloomFilter.wf_shift {N : Nat} {C : Type} (ops : ShiftOps C)
    {r : RollingBloomFilter C} (hw : r.Wf N) : (r.shift N ops).Wf N :=
  ⟨hw.2, BloomFilter.wf_new N⟩

theorem RollingBloomFilter.wf_add (hash128 : Bytes → Int → Nat) {N : Nat} (S : Int)
    {C : Type} (ops : ShiftOps C) {r : RollingBloomFilter C} (v : Bytes)
    (hw : r.Wf N) : (r.add hash128 N S ops v).Wf N := by
  have hf := RollingBloomFilter.filters_add hash128 N S ops r v
  unfold RollingBloomFilter.Wf
  rw [hf]
  by_cases h : condFires ops r.shift_condition <;> simp only [h, if_true, if_false]
  · exact ⟨BloomFilter.wf_add_hash _ hw.2, BloomFilter.wf_new N⟩
  · exact ⟨BloomFilter.wf_add_hash _ hw.1, BloomFilter.wf_add_hash _ hw.2⟩

/-! ## Retention invariant -/

theorem holdsIn_iff_contains (hash128 : Bytes → Int → Nat) (N : Nat) (v : Bytes)
    (f : BloomFilter) :
    HoldsIn hash128 N v f ↔ f.contains hash128 N v = true :=
  (BloomFilter.contains_eq_all hash128 N f v).symm

theorem holdsIn_add_hash_mono (hash128 : Bytes → Int → Nat) (N : Nat) (v : Bytes)
    (f : BloomFilter) (h : BloomHash) (hv : HoldsIn hash128 N v f) :
    HoldsIn hash128 N v (f.add_hash h) := by
  rw [holdsIn_iff_contains] at hv ⊢
  exact BloomFilter.contains_add_hash_mono hash128 N f h v hv

theorem holdsIn_add_hash_self (hash128 : Bytes → Int → Nat) (N : Nat) (S : Int)
    (v : Bytes) (f : BloomFilter) (hw : f.Wf N) :
    HoldsIn hash128 N v (f.add_hash (bloomHashFrom hash128 N S v)) := by
  rw [holdsIn_iff_contains]
  exact BloomFilter.contains_add_hash_self hash128 N S f v hw

theorem holdsIn_slot0_add (hash128 : Bytes → Int → Nat) (N : Nat) (S : Int)
    {C : Type} (ops : ShiftOps C) (r : RollingBloomFilter C) (v : Bytes)
    (hw : r.Wf N) :
    HoldsIn hash128 N v (r.add hash128 N S ops v).filters.1 := by
  rw [RollingBloomFilter.filters_add]
  by_cases h : condFires ops r.shift_condition <;> simp only [h, if_true, if_false]
  · exact holdsIn_add_hash_self hash128 N S v _ hw.2
  · exact holdsIn_add_hash_self hash128 N S v _ hw.1

theorem holdsIn_slot1_add_of_not_fires (hash128 : Bytes → Int → Nat) (N : Nat)
    (S : Int) {C : Type} (ops : ShiftOps C) (r : RollingBloomFilter C) (v : Bytes)
    (hw : r.Wf N) (h : condFires ops r.shift_condition = false) :
    HoldsIn hash128 N v (r.add hash128 N S ops v).filters.2 := by
  rw [RollingBloomFilter.filters_add, h]
  simp only [Bool.false_eq_true, if_false]
  exact holdsIn_add_hash_self hash128 N S v _ hw.2

theorem roll_keep_slot0 (hash128 : Bytes → Int → Nat) (N : Nat) (S : Int)
    {C : Type} (ops : ShiftOps C) (v : Bytes) (l : List RollOp) :
    ∀ r : RollingBloomFilter C, HoldsIn hash128 N v r.filters.1 →
      shiftEvents ops r.shift_condition l = 0 →
      HoldsIn hash128 N v (r.applyOps hash128 N S ops l).filters.1 := by
  induction l with
  | nil => intro r h0 _; exact h0
  | cons op t ih =>
    intro r h0 he
    cases op with
    | addValue w =>
      rw [shiftEvents] at he
      have hf : condFires ops r.shift_condition = false := by
        by_cases hb : condFires ops r.shift_condition
        · rw [hb] at he; simp at he
        · simpa using hb
      have ht : shiftEvents ops (condStep ops r.shift_condition) t = 0 := by
        rw [hf] at he; simpa using he
      have h0' : HoldsIn hash128 N v (r.add hash128 N S ops w).filters.1 := by
        rw [RollingBloomFilter.filters_add, hf]
        simp only [Bool.false_eq_true, if_false]
        exact holdsIn_add_hash_mono hash128 N v _ _ h0
      have hc : (r.add hash128 N S ops w).shift_condition =
          condStep ops r.shift_condition :=
        RollingBloomFilter.shift_condition_add hash128 N S ops r w
      have := ih (r.add hash128 N S ops w) h0' (by rw [hc]; exact ht)
      simpa [RollingBloomFilter.applyOps, RollingBloomFilter.applyOp] using this
    | doShift =>
      rw [shiftEvents] at he
      omega

theorem roll_keep_slots01 (hash128 : Bytes → Int → Nat) (N : Nat) (S : Int)
    {C : Type} (ops : ShiftOps C) (v : Bytes) (l : List RollOp) :
    ∀ r : RollingBloomFilter C,
      HoldsIn hash128 N v r.filters.1 → HoldsIn hash128 N v r.filters.2 →
      shiftEvents ops r.shift_condition l ≤ 1 →
      HoldsIn hash128 N v (r.applyOps hash128 N S ops l).filters.1 := by
  induction l with
  | nil => intro r h0 _ _; exact h0
  | cons op t ih =>
    intro r h0 h1 he
    cases op with
    | addValue w =>
      rw [shiftEvents] at he
      have hc : (r.add hash128 N S ops w).shift_condition =
          condStep ops r.shift_condition :=
        RollingBloomFilter.shift_condition_add hash128 N S ops r w
      by_cases hb : condFires ops r.shift_condition
      · have ht : shiftEvents ops (condStep ops r.shift_condition) t = 0 := by
          rw [hb] at he; simp at he; omega
        have h0' : HoldsIn hash128 N v (r.add hash128 N S ops w).filters.1 := by
          rw [RollingBloomFilter.filters_add, hb]
          simp only [if_true]
          exact holdsIn_add_hash_mono hash128 N v _ _ h1
        have := roll_keep_slot0 hash128 N S ops v t (r.add hash128 N S ops w) h0'
          (by rw [hc]; exact ht)
        simpa [RollingBloomFilter.applyOps, RollingBloomFilter.applyOp] using this
      · have hbf : condFires ops r.shift_condition = false := by simpa using hb
        have ht : shiftEvents ops (condStep ops r.shift_condition) t ≤ 1 := by
          rw [hbf] at he; simpa using he
        have h0' : HoldsIn hash128 N v (r.add hash128 N S ops w).filters.1 := by
          rw [RollingBloomFilter.filters_add, hbf]
          simp only [Bool.false_eq_true, if_false]
          exact holdsIn_add_hash_mono hash128 N v _ _ h0
        have h1' : HoldsIn hash128 N v (r.add hash128 N S ops w).filters.2 := by
          rw [RollingBloomFilter.filters_add, hbf]
          simp only [Bool.false_eq_true, if_false]
          exact holdsIn_add_hash_mono hash128 N v _ _ h1
        have := ih (r.add hash128 N S ops w) h0' h1' (by rw [hc]; exact ht)
        simpa [RollingBloomFilter.applyOps, RollingBloomFilter.applyOp] using this
    | doShift =>
      rw [shiftEvents] at he
      have ht : shiftEvents ops (ops.do_shift r.shift_condition) t = 0 := by omega
      have h0' : HoldsIn hash128 N v (r.shift N ops).filters.1 := by
        rw [RollingBloomFilter.filters_shift]; exact h1
      have := roll_keep_slot0 hash128 N S ops v t (r.shift N ops) h0' ht
      simpa [RollingBloomFilter.applyOps, RollingBloomFilter.applyOp] using this

/-! ## Insertion-count condition arithmetic -/

theorem condFires_insertions (L k : Nat) :
    condFires ShiftByInsertions.ops ⟨L, k⟩ = decide (k + 1 ≥ L) := rfl

theorem condStep_insertions (L k : Nat) :
    condStep ShiftByInsertions.ops ⟨L, k⟩ =
      if k + 1 ≥ L then (⟨L, 0⟩ : ShiftByInsertions) else ⟨L, k + 1⟩ := by
  unfold condStep ShiftOps.should_shift_after_increment ShiftByInsertions.ops
  by_cases h : k + 1 ≥ L <;> simp [h]

theorem condIter_insertions (L : Nat) :
    ∀ (j k : Nat), k + j < L →
      condIter ShiftByInsertions.ops j ⟨L, k⟩ = ⟨L, k + j⟩ := by
  intro j
  induction j with
  | zero => intro k _; rfl
  | succ n ih =>
    intro k h
    rw [condIter, condStep_insertions, if_neg (by omega)]
    have heq : k + 1 + n = k + (n + 1) := by omega
    rw [ih (k + 1) (by omega), heq]

/-! ## Sequences of `add` calls -/

theorem applyAdds_shift_condition (hash128 : Bytes → Int → Nat) (N : Nat) (S : Int)
    {C : Type} (ops : ShiftOps C) (vs : List Bytes) :
    ∀ r : RollingBloomFilter C,
      (r.applyAdds hash128 N S ops vs).shift_condition =
        condIter ops vs.length r.shift_condition := by
  induction vs with
  | nil => intro _; rfl
  | cons v t ih =>
    intro r
    have hstep : r.applyAdds hash128 N S ops (v :: t) =
        (r.add hash128 N S ops v).applyAdds hash128 N S ops t := rfl
    rw [hstep, ih, RollingBloomFilter.shift_condition_add]
    rfl

theorem applyAdds_filters_of_no_fire (hash128 : Bytes → Int → Nat) (N : Nat) (S : Int)
    {C : Type} (ops : ShiftOps C) (vs : List Bytes) :
    ∀ r : RollingBloomFilter C,
      (∀ j, j < vs.length → condFires ops (condIter ops j r.shift_condition) = false) →
      (r.applyAdds hash128 N S ops vs).filters =
        ((vs.map (bloomHashFrom hash128 N S)).foldl BloomFilter.add_hash r.filters.1,
         (vs.map (bloomHashFrom hash128 N S)).foldl BloomFilter.add_hash r.filters.2) := by
  induction vs with
  | nil => intro r _; rfl
  | cons v t ih =>
    intro r hnf
    have h0 : condFires ops r.shift_condition = false := hnf 0 (by simp)
    have hstep : r.applyAdds hash128 N S ops (v :: t) =
        (r.add hash128 N S ops v).applyAdds hash128 N S ops t := rfl
    have hnf' : ∀ j, j < t.length →
        condFires ops (condIter ops j (r.add hash128 N S ops v).shift_condition)
          = false := by
      intro j hj
      rw [RollingBloomFilter.shift_condition_add]
      exact hnf (j + 1) (by simpa using Nat.succ_lt_succ hj)
    rw [hstep, ih (r.add hash128 N S ops v) hnf', RollingBloomFilter.filters_add, h0]
    simp only [Bool.false_eq_true, if_false]
    rfl

/-! ## Fresh filters are empty -/

theorem getD_replicate_false (n i : Nat) :
    (List.replicate n false).getD i false = false := by
  induction n generalizing i with
  | zero => rfl
  | succ m ih => cases i <;> simp [List.replicate, ih]

theorem contains_new_false (hash128 : Bytes → Int → Nat) (N : Nat) (hN : 0 < N)
    (v : Bytes) : (BloomFilter.new N).contains hash128 N v = false := by
  cases hc : (BloomFilter.new N).contains hash128 N v with
  | false => rfl
  | true =>
    exfalso
    have hx : ∃ i, i ∈ (bloomHashFrom hash128 N 0 v).hashes := by
      have hlen := bloomHashFrom_length hash128 N 0 v
      cases hh : (bloomHashFrom hash128 N 0 v).hashes with
      | nil => rw [hh] at hlen; simp at hlen; omega
      | cons a t => exact ⟨a, by simp [hh]⟩
    obtain ⟨i, hi⟩ := hx
    have := (BloomFilter.contains_eq_all hash128 N (BloomFilter.new N) v).mp hc i hi
    rw [show (BloomFilter.new N).bits = List.replicate (1 <<< (128 / N)) false from rfl,
      getD_replicate_false] at this
    exact Bool.false_ne_true this

/-! ## Sequences of fixed-filter calls -/

theorem fixed_keep (hash128 : Bytes → Int → Nat) (N : Nat) (S : Int) (v : Bytes)
    (l : List FixedOp) :
    ∀ f : BloomFilter, f.contains hash128 N v = true →
      (f.applyOps hash128 N S l).contains hash128 N v = true := by
  induction l with
  | nil => intro f h; exact h
  | cons op t ih =>
    intro f h
    have hstep : f.applyOps hash128 N S (op :: t) =
        (f.applyOp hash128 N S op).applyOps hash128 N S t := rfl
    rw [hstep]
    refine ih _ ?_
    cases op with
    | addValue w =>
      exact BloomFilter.contains_add_hash_mono hash128 N f
        (bloomHashFrom hash128 N S w) v h
    | addRecord hh => exact BloomFilter.contains_add_hash_mono hash128 N f hh v h

/-! ## Duration condition arithmetic -/

theorem condFires_duration (now : Nat) (c : ShiftByDuration) :
    condFires (ShiftByDuration.ops now) c =
      decide (now - c.last_shift > c.duration) := rfl

theorem condStep_duration (now : Nat) (c : ShiftByDuration) :
    condStep (ShiftByDuration.ops now) c =
      if now - c.last_shift > c.duration then
        (⟨c.duration, now⟩ : ShiftByDuration)
      else c := by
  unfold condStep ShiftOps.should_shift_after_increment ShiftByDuration.ops
  by_cases h : now - c.last_shift > c.duration <;> simp [h]

/-! ## The claims -/

/-- C1: No false negatives for the fixed filter: for every byte sequence `V` and
every well-formed fixed Bloom filter `F`, after `F.add(V)` the query
`F.contains(V)` returns true, and it keeps returning true after any further
sequence of `add`/`add_hash` calls on `F`. -/
theorem C1_no_false_negatives (hash128 : Bytes → Int → Nat) (N : Nat) (S : Int)
    (f : BloomFilter) (hw : f.Wf N) (v : Bytes) (l : List FixedOp) :
    ((f.add hash128 N S v).applyOps hash128 N S l).contains hash128 N v = true := by
  refine fixed_keep hash128 N S v l _ ?_
  exact BloomFilter.contains_add_hash_self hash128 N S f v hw

/-- Witness for C1 at a concrete input: the fresh `N = 8` filter is well formed, and
after adding the bytes of `"hello"` (with an empty further call sequence, under the
concrete hash stand-in) the filter contains them. -/
theorem C1_no_false_negatives_witness :
    (BloomFilter.new 8).Wf 8 ∧
      (((BloomFilter.new 8).add hash0 8 0 helloB).applyOps hash0 8 0 []).contains
        hash0 8 helloB = true :=
  ⟨BloomFilter.wf_new 8,
   C1_no_false_negatives hash0 8 0 (BloomFilter.new 8) (BloomFilter.wf_new 8)
     helloB []⟩

/-- C4: the claim asserts distinct seed parameters `S1 ≠ S2` can yield differing
hash-index sets for some input; in the code the seed parameter is never used —
`gxhash128` is always called with literal seed `0` and the `SEED` constant is never
read — so the record and the `add` result are identical for every pair of seeds. -/
theorem C4_seed_unused (hash128 : Bytes → Int → Nat) (N : Nat) (S1 S2 : Int)
    (f : BloomFilter) (v : Bytes) :
    bloomHashFrom hash128 N S1 v = bloomHashFrom hash128 N S2 v ∧
      f.add hash128 N S1 v = f.add hash128 N S2 v :=
  ⟨rfl, rfl⟩

/-- C7: Immediate visibility: for every rolling filter state (well formed) and every
byte sequence `V`, immediately after `add(V)` the query `contains(V)` returns true —
also when that `add` call itself fired a rotation, because the value was dual-written
into slot 1 before the swap. -/
theorem C7_immediate_visibility (hash128 : Bytes → Int → Nat) (N : Nat) (S : Int)
    {C : Type} (ops : ShiftOps C) (r : RollingBloomFilter C) (hw : r.Wf N)
    (v : Bytes) :
    (r.add hash128 N S ops v).contains hash128 N v = true := by
  have h := holdsIn_slot0_add hash128 N S ops r v hw
  rw [holdsIn_iff_contains] at h
  exact h

/-- Witness for C7 at a concrete input: a fresh rolling filter with the limit-3
insertion condition is well formed, and right after adding `"hello"` it contains it. -/
theorem C7_immediate_visibility_witness :
    (RollingBloomFilter.new 8 (ShiftByInsertions.new 3)).Wf 8 ∧
      ((RollingBloomFilter.new 8 (ShiftByInsertions.new 3)).add hash0 8 0
        ShiftByInsertions.ops helloB).contains hash0 8 helloB = true :=
  ⟨RollingBloomFilter.wf_of_new 8 (ShiftByInsertions.new 3),
   C7_immediate_visibility hash0 8 0 ShiftByInsertions.ops
     (RollingBloomFilter.new 8 (ShiftByInsertions.new 3))
     (RollingBloomFilter.wf_of_new 8 (ShiftByInsertions.new 3)) helloB⟩

/-- C9: Monotonicity: a bit that is true before an `add_hash` or `add` call on a
fixed Bloom filter is still true after it; these calls only ever set bits. -/
theorem C9_monotonic_bits (hash128 : Bytes → Int → Nat) (N : Nat) (S : Int)
    (f : BloomFilter) (h : BloomHash) (v : Bytes) (i : Nat)
    (hb : f.bits.getD i false = true) :
    (f.add_hash h).bits.getD i false = true ∧
      (f.add hash128 N S v).bits.getD i false = true :=
  ⟨getD_foldl_set_mono h.hashes f.bits i hb,
   getD_foldl_set_mono (bloomHashFrom hash128 N S v).hashes f.bits i hb⟩

/-- Witness for C9 at a concrete input: bit 0, set by an `add_hash` of the record
`[0]` on the fresh `N = 8` filter, stays set across a further `add_hash` and `add`. -/
theorem C9_monotonic_bits_witness :
    ((BloomFilter.new 8).add_hash ⟨[0]⟩).bits.getD 0 false = true ∧
      ((((BloomFilter.new 8).add_hash ⟨[0]⟩).add_hash ⟨[1]⟩).bits.getD 0 false = true ∧
        (((BloomFilter.new 8).add_hash ⟨[0]⟩).add hash0 8 0 helloB).bits.getD 0 false
          = true) :=
  ⟨by decide,
   C9_monotonic_bits hash0 8 0 ((BloomFilter.new 8).add_hash ⟨[0]⟩) ⟨[1]⟩ helloB 0
     (by decide)⟩

/-- C10: a freshly constructed fixed Bloom filter and a freshly constructed rolling
Bloom filter report `contains(V) = false` for every byte sequence `V`: all bits start
false and the hash record is non-empty whenever `N > 0` (the code only admits
`N = 4` or `N = 8`). -/
theorem C10_fresh_empty (hash128 : Bytes → Int → Nat) (N : Nat) (hN : 0 < N)
    (v : Bytes) {C : Type} (c : C) :
    (BloomFilter.new N).contains hash128 N v = false ∧
      (RollingBloomFilter.new N c).contains hash128 N v = false := by
  refine ⟨contains_new_false hash128 N hN v, ?_⟩
  show (RollingBloomFilter.new N c).filters.1.contains hash128 N v = false
  exact contains_new_false hash128 N hN v

/-- Witness for C10 at a concrete input: with `N = 8` the fresh fixed filter and the
fresh rolling filter both reject the bytes of `"hello"`. -/
theorem C10_fresh_empty_witness :
    0 < 8 ∧
      ((BloomFilter.new 8).contains hash0 8 helloB = false ∧
        (RollingBloomFilter.new 8 (ShiftByInsertions.new 3)).contains hash0 8 helloB
          = false) :=
  ⟨by decide, C10_fresh_empty hash0 8 (by decide) helloB (ShiftByInsertions.new 3)⟩

/-- C8: Totality: every hash-record index is below the bit-array length of a
well-formed filter (so the out-of-bounds branch is unreachable), and every public
operation returns a well-formed filter again — `new`, `add_hash`, `add` on the fixed
filter and `add`, `shift` on the rolling filter. -/
theorem C8_totality (hash128 : Bytes → Int → Nat) (N : Nat) (S : Int) (v : Bytes)
    (f : BloomFilter) (h : BloomHash) {C : Type} (ops : ShiftOps C)
    (r : RollingBloomFilter C) (hwf : f.Wf N) (hwr : r.Wf N) :
    (∀ i ∈ (bloomHashFrom hash128 N S v).hashes, i < f.bits.length) ∧
      (BloomFilter.new N).Wf N ∧
      (f.add_hash h).Wf N ∧
      (f.add hash128 N S v).Wf N ∧
      (r.add hash128 N S ops v).Wf N ∧
      (r.shift N ops).Wf N := by
  refine ⟨?_, BloomFilter.wf_new N, BloomFilter.wf_add_hash h hwf,
    BloomFilter.wf_add_hash _ hwf,
    RollingBloomFilter.wf_add hash128 S ops v hwr,
    RollingBloomFilter.wf_shift ops hwr⟩
  intro i hi
  have hlt := bloomHashFrom_lt hash128 N S v i hi
  rw [BloomFilter.Wf] at hwf
  omega

/-- Witness for C8 at a concrete input: instantiated at `N = 8`, the fresh fixed and
rolling filters, the record `[0]` and the bytes of `"hello"`. -/
theorem C8_totality_witness :
    (BloomFilter.new 8).Wf 8 ∧
      (RollingBloomFilter.new 8 (ShiftByInsertions.new 3)).Wf 8 ∧
      ((∀ i ∈ (bloomHashFrom hash0 8 0 helloB).hashes,
          i < (BloomFilter.new 8).bits.length) ∧
        (BloomFilter.new 8).Wf 8 ∧
        ((BloomFilter.new 8).add_hash ⟨[0]⟩).Wf 8 ∧
        ((BloomFilter.new 8).add hash0 8 0 helloB).Wf 8 ∧
        ((RollingBloomFilter.new 8 (ShiftByInsertions.new 3)).add hash0 8 0
          ShiftByInsertions.ops helloB).Wf 8 ∧
        ((RollingBloomFilter.new 8 (ShiftByInsertions.new 3)).shift 8
          ShiftByInsertions.ops).Wf 8) :=
  ⟨BloomFilter.wf_new 8, RollingBloomFilter.wf_of_new 8 (ShiftByInsertions.new 3),
   C8_totality hash0 8 0 helloB (BloomFilter.new 8) ⟨[0]⟩ ShiftByInsertions.ops
     (RollingBloomFilter.new 8 (ShiftByInsertions.new 3)) (BloomFilter.wf_new 8)
     (RollingBloomFilter.wf_of_new 8 (ShiftByInsertions.new 3))⟩

/-- C5: Insertion-count shift trigger: with limit `L ≥ 1` and the counter at 0, the
first `L - 1` `add` calls on the rolling filter do not fire a rotation (the counter
climbs `0,1,…,L-1` and the slots are only dual-written), and the `L`-th `add` fires
the rotation on that call: slot 0 becomes the old slot 1, slot 1 becomes a fresh
filter, and the counter is reset to 0. -/
theorem C5_insertion_trigger (hash128 : Bytes → Int → Nat) (N : Nat) (S : Int)
    (L : Nat) (hL : 1 ≤ L) (r : RollingBloomFilter ShiftByInsertions)
    (hc : r.shift_condition = ShiftByInsertions.new L)
    (vs : List Bytes) (y : Bytes) (hvs : vs.length = L - 1) :
    (∀ j, j ≤ L - 1 →
      (r.applyAdds hash128 N S ShiftByInsertions.ops (vs.take j)).shift_condition
        = ⟨L, j⟩) ∧
    (∀ j, j < L - 1 →
      condFires ShiftByInsertions.ops
        ((r.applyAdds hash128 N S ShiftByInsertions.ops (vs.take j)).shift_condition)
        = false) ∧
    (r.applyAdds hash128 N S ShiftByInsertions.ops vs).filters =
      ((vs.map (bloomHashFrom hash128 N S)).foldl BloomFilter.add_hash r.filters.1,
       (vs.map (bloomHashFrom hash128 N S)).foldl BloomFilter.add_hash r.filters.2) ∧
    condFires ShiftByInsertions.ops
      ((r.applyAdds hash128 N S ShiftByInsertions.ops vs).shift_condition) = true ∧
    ((r.applyAdds hash128 N S ShiftByInsertions.ops vs).add hash128 N S
        ShiftByInsertions.ops y).shift_condition = ShiftByInsertions.new L ∧
    ((r.applyAdds hash128 N S ShiftByInsertions.ops vs).add hash128 N S
        ShiftByInsertions.ops y).filters =
      ((r.applyAdds hash128 N S ShiftByInsertions.ops vs).filters.2.add_hash
          (bloomHashFrom hash128 N S y),
       BloomFilter.new N) := by
  have hnew : r.shift_condition = (⟨L, 0⟩ : ShiftByInsertions) := hc
  have hcondj : ∀ j, j ≤ L - 1 →
      (r.applyAdds hash128 N S ShiftByInsertions.ops (vs.take j)).shift_condition
        = ⟨L, j⟩ := by
    intro j hj
    rw [applyAdds_shift_condition, List.length_take, hvs, hnew]
    have hmin : min j (L - 1) = j := by omega
    rw [hmin]
    have h := condIter_insertions L j 0 (by omega)
    simpa using h
  have hfires_false : ∀ j, j < L - 1 →
      condFires ShiftByInsertions.ops
        ((r.applyAdds hash128 N S ShiftByInsertions.ops (vs.take j)).shift_condition)
        = false := by
    intro j hj
    rw [hcondj j (by omega), condFires_insertions]
    simp only [ge_iff_le, decide_eq_false_iff_not, not_le]
    omega
  have hvstake : vs.take (L - 1) = vs := by
    rw [← hvs]; exact List.take_length vs
  have hfinal_cond :
      (r.applyAdds hash128 N S ShiftByInsertions.ops vs).shift_condition
        = ⟨L, L - 1⟩ := by
    have h := hcondj (L - 1) (le_refl _)
    rwa [hvstake] at h
  have hfires_true : condFires ShiftByInsertions.ops
      ((r.applyAdds hash128 N S ShiftByInsertions.ops vs).shift_condition) = true := by
    rw [hfinal_cond, condFires_insertions]
    simp only [ge_iff_le, decide_eq_true_eq]
    omega
  have hfilters :
      (r.applyAdds hash128 N S ShiftByInsertions.ops vs).filters =
        ((vs.map (bloomHashFrom hash128 N S)).foldl BloomFilter.add_hash r.filters.1,
         (vs.map (bloomHashFrom hash128 N S)).foldl BloomFilter.add_hash
           r.filters.2) := by
    refine applyAdds_filters_of_no_fire hash128 N S ShiftByInsertions.ops vs r ?_
    intro j hjlen
    rw [hvs] at hjlen
    rw [hnew, condIter_insertions L j 0 (by omega), condFires_insertions]
    simp only [ge_iff_le, decide_eq_false_iff_not, not_le]
    omega
  have hlast_cond :
      ((r.applyAdds hash128 N S ShiftByInsertions.ops vs).add hash128 N S
        ShiftByInsertions.ops y).shift_condition = ShiftByInsertions.new L := by
    rw [RollingBloomFilter.shift_condition_add, hfinal_cond, condStep_insertions,
      if_pos (by omega)]
    rfl
  have hlast_filters :
      ((r.applyAdds hash128 N S ShiftByInsertions.ops vs).add hash128 N S
        ShiftByInsertions.ops y).filters =
      ((r.applyAdds hash128 N S ShiftByInsertions.ops vs).filters.2.add_hash
          (bloomHashFrom hash128 N S y),
       BloomFilter.new N) := by
    rw [RollingBloomFilter.filters_add, hfires_true]
    simp
  exact ⟨hcondj, hfires_false, hfilters, hfires_true, hlast_cond, hlast_filters⟩

/-- Witness for C5 at a concrete input: limit `L = 2`, one first `add` (`"hello"`)
that does not rotate, then the second `add` (`"world"`) that does. -/
theorem C5_insertion_trigger_witness :
    1 ≤ 2 ∧
      (RollingBloomFilter.new 8 (ShiftByInsertions.new 2)).shift_condition
        = ShiftByInsertions.new 2 ∧
      [helloB].length = 2 - 1 ∧
      ((∀ j, j ≤ 2 - 1 →
        ((RollingBloomFilter.new 8 (ShiftByInsertions.new 2)).applyAdds hash0 8 0
          ShiftByInsertions.ops ([helloB].take j)).shift_condition = ⟨2, j⟩) ∧
      (∀ j, j < 2 - 1 →
        condFires ShiftByInsertions.ops
          (((RollingBloomFilter.new 8 (ShiftByInsertions.new 2)).applyAdds hash0 8 0
            ShiftByInsertions.ops ([helloB].take j)).shift_condition) = false) ∧
      ((RollingBloomFilter.new 8 (ShiftByInsertions.new 2)).applyAdds hash0 8 0
          ShiftByInsertions.ops [helloB]).filters =
        (([helloB].map (bloomHashFrom hash0 8 0)).foldl BloomFilter.add_hash
            (RollingBloomFilter.new 8 (ShiftByInsertions.new 2)).filters.1,
         ([helloB].map (bloomHashFrom hash0 8 0)).foldl BloomFilter.add_hash
            (RollingBloomFilter.new 8 (ShiftByInsertions.new 2)).filters.2) ∧
      condFires ShiftByInsertions.ops
        (((RollingBloomFilter.new 8 (ShiftByInsertions.new 2)).applyAdds hash0 8 0
          ShiftByInsertions.ops [helloB]).shift_condition) = true ∧
      (((RollingBloomFilter.new 8 (ShiftByInsertions.new 2)).applyAdds hash0 8 0
          ShiftByInsertions.ops [helloB]).add hash0 8 0 ShiftByInsertions.ops
          worldB).shift_condition = ShiftByInsertions.new 2 ∧
      (((RollingBloomFilter.new 8 (ShiftByInsertions.new 2)).applyAdds hash0 8 0
          ShiftByInsertions.ops [helloB]).add hash0 8 0 ShiftByInsertions.ops
          worldB).filters =
        (((RollingBloomFilter.new 8 (ShiftByInsertions.new 2)).applyAdds hash0 8 0
            ShiftByInsertions.ops [helloB]).filters.2.add_hash
            (bloomHashFrom hash0 8 0 worldB),
         BloomFilter.new 8)) :=
  ⟨by decide, rfl, rfl,
   C5_insertion_trigger hash0 8 0 2 (by decide)
     (RollingBloomFilter.new 8 (ShiftByInsertions.new 2)) rfl [helloB] worldB rfl⟩

/-- C3 (amended): in the limit-3 insertion-count scenario, inserting `"hello"`,
`"world"`, `"foo"`, `"bar"` in order fires the first rotation on the 3rd insertion —
the add of `"foo"`, not of `"bar"` — and on no other of the four adds; after all four
adds, `"foo"`, `"bar"`, `"hello"` and `"world"` are all contained. -/
theorem C3_scenario_amended (hash128 : Bytes → Int → Nat) (N : Nat) (S : Int)
    (r0 r1 r2 r3 r4 : RollingBloomFilter ShiftByInsertions)
    (h0 : r0 = RollingBloomFilter.new N (ShiftByInsertions.new 3))
    (h1 : r1 = r0.add hash128 N S ShiftByInsertions.ops helloB)
    (h2 : r2 = r1.add hash128 N S ShiftByInsertions.ops worldB)
    (h3 : r3 = r2.add hash128 N S ShiftByInsertions.ops fooB)
    (h4 : r4 = r3.add hash128 N S ShiftByInsertions.ops barB) :
    condFires ShiftByInsertions.ops r0.shift_condition = false ∧
    condFires ShiftByInsertions.ops r1.shift_condition = false ∧
    condFires ShiftByInsertions.ops r2.shift_condition = true ∧
    condFires ShiftByInsertions.ops r3.shift_condition = false ∧
    r4.contains hash128 N helloB = true ∧
    r4.contains hash128 N worldB = true ∧
    r4.contains hash128 N fooB = true ∧
    r4.contains hash128 N barB = true := by
  have hc0 : r0.shift_condition = (⟨3, 0⟩ : ShiftByInsertions) := by rw [h0]; rfl
  have hc1 : r1.shift_condition = (⟨3, 1⟩ : ShiftByInsertions) := by
    rw [h1, RollingBloomFilter.shift_condition_add, hc0]; rfl
  have hc2 : r2.shift_condition = (⟨3, 2⟩ : ShiftByInsertions) := by
    rw [h2, RollingBloomFilter.shift_condition_add, hc1]; rfl
  have hc3 : r3.shift_condition = (⟨3, 0⟩ : ShiftByInsertions) := by
    rw [h3, RollingBloomFilter.shift_condition_add, hc2]; rfl
  have hb0 : condFires ShiftByInsertions.ops r0.shift_condition = false := by
    rw [hc0]; rfl
  have hb1 : condFires ShiftByInsertions.ops r1.shift_condition = false := by
    rw [hc1]; rfl
  have hb2 : condFires ShiftByInsertions.ops r2.shift_condition = true := by
    rw [hc2]; rfl
  have hb3 : condFires ShiftByInsertions.ops r3.shift_condition = false := by
    rw [hc3]; rfl
  have e0 : r0.filters = (BloomFilter.new N, BloomFilter.new N) := by rw [h0]; rfl
  have e1 : r1.filters =
      ((BloomFilter.new N).add_hash (bloomHashFrom hash128 N S helloB),
       (BloomFilter.new N).add_hash (bloomHashFrom hash128 N S helloB)) := by
    rw [h1, RollingBloomFilter.filters_add, hb0]
    simp only [Bool.false_eq_true, if_false]
    rw [e0]
  have e2 : r2.filters =
      (((BloomFilter.new N).add_hash (bloomHashFrom hash128 N S helloB)).add_hash
        (bloomHashFrom hash128 N S worldB),
       ((BloomFilter.new N).add_hash (bloomHashFrom hash128 N S helloB)).add_hash
        (bloomHashFrom hash128 N S worldB)) := by
    rw [h2, RollingBloomFilter.filters_add, hb1]
    simp only [Bool.false_eq_true, if_false]
    rw [e1]
  have e3 : r3.filters =
      ((((BloomFilter.new N).add_hash (bloomHashFrom hash128 N S helloB)).add_hash
          (bloomHashFrom hash128 N S worldB)).add_hash
          (bloomHashFrom hash128 N S fooB),
       BloomFilter.new N) := by
    rw [h3, RollingBloomFilter.filters_add, hb2]
    simp only [if_true]
    rw [e2]
  have e4 : r4.filters =
      (((((BloomFilter.new N).add_hash (bloomHashFrom hash128 N S helloB)).add_hash
          (bloomHashFrom hash128 N S worldB)).add_hash
          (bloomHashFrom hash128 N S fooB)).add_hash
          (bloomHashFrom hash128 N S barB),
       (BloomFilter.new N).add_hash (bloomHashFrom hash128 N S barB)) := by
    rw [h4, RollingBloomFilter.filters_add, hb3]
    simp only [Bool.false_eq_true, if_false]
    rw [e3]
  have wfE : (BloomFilter.new N).Wf N := BloomFilter.wf_new N
  have wf1 : ((BloomFilter.new N).add_hash (bloomHashFrom hash128 N S helloB)).Wf N :=
    BloomFilter.wf_add_hash _ wfE
  have wf2 : (((BloomFilter.new N).add_hash
      (bloomHashFrom hash128 N S helloB)).add_hash
      (bloomHashFrom hash128 N S worldB)).Wf N :=
    BloomFilter.wf_add_hash _ wf1
  have wf3 : ((((BloomFilter.new N).add_hash
      (bloomHashFrom hash128 N S helloB)).add_hash
      (bloomHashFrom hash128 N S worldB)).add_hash
      (bloomHashFrom hash128 N S fooB)).Wf N :=
    BloomFilter.wf_add_hash _ wf2
  have hslot : ∀ value : Bytes, r4.contains hash128 N value =
      (((((BloomFilter.new N).add_hash (bloomHashFrom hash128 N S helloB)).add_hash
          (bloomHashFrom hash128 N S worldB)).add_hash
          (bloomHashFrom hash128 N S fooB)).add_hash
          (bloomHashFrom hash128 N S barB)).contains hash128 N value := by
    intro value
    show r4.filters.1.contains hash128 N value = _
    rw [e4]
  refine ⟨hb0, hb1, hb2, hb3, ?_, ?_, ?_, ?_⟩
  · rw [hslot helloB]
    refine BloomFilter.contains_add_hash_mono hash128 N _ _ _ ?_
    refine BloomFilter.contains_add_hash_mono hash128 N _ _ _ ?_
    refine BloomFilter.contains_add_hash_mono hash128 N _ _ _ ?_
    exact BloomFilter.contains_add_hash_self hash128 N S _ helloB wfE
  · rw [hslot worldB]
    refine BloomFilter.contains_add_hash_mono hash128 N _ _ _ ?_
    refine BloomFilter.contains_add_hash_mono hash128 N _ _ _ ?_
    exact BloomFilter.contains_add_hash_self hash128 N S _ worldB wf1
  · rw [hslot fooB]
    refine BloomFilter.contains_add_hash_mono hash128 N _ _ _ ?_
    exact BloomFilter.contains_add_hash_self hash128 N S _ fooB wf2
  · rw [hslot barB]
    exact BloomFilter.contains_add_hash_self hash128 N S _ barB wf3

/-- Witness for C3 (amended) at a concrete input: `N = 8` under the concrete hash
stand-in; the rotation fires on the add of `"foo"` only, and all four values are
contained afterwards. -/
theorem C3_scenario_amended_witness :
    (RollingBloomFilter.new 8 (ShiftByInsertions.new 3)
        : RollingBloomFilter ShiftByInsertions) =
      RollingBloomFilter.new 8 (ShiftByInsertions.new 3) ∧
      (condFires ShiftByInsertions.ops
        (RollingBloomFilter.new 8 (ShiftByInsertions.new 3)).shift_condition
          = false ∧
      condFires ShiftByInsertions.ops
        ((RollingBloomFilter.new 8 (ShiftByInsertions.new 3)).add hash0 8 0
          ShiftByInsertions.ops helloB).shift_condition = false ∧
      condFires ShiftByInsertions.ops
        (((RollingBloomFilter.new 8 (ShiftByInsertions.new 3)).add hash0 8 0
          ShiftByInsertions.ops helloB).add hash0 8 0 ShiftByInsertions.ops
          worldB).shift_condition = true ∧
      condFires ShiftByInsertions.ops
        ((((RollingBloomFilter.new 8 (ShiftByInsertions.new 3)).add hash0 8 0
          ShiftByInsertions.ops helloB).add hash0 8 0 ShiftByInsertions.ops
          worldB).add hash0 8 0 ShiftByInsertions.ops fooB).shift_condition
            = false ∧
      (((((RollingBloomFilter.new 8 (ShiftByInsertions.new 3)).add hash0 8 0
        ShiftByInsertions.ops helloB).add hash0 8 0 ShiftByInsertions.ops
        worldB).add hash0 8 0 ShiftByInsertions.ops fooB).add hash0 8 0
        ShiftByInsertions.ops barB).contains hash0 8 helloB = true ∧
      (((((RollingBloomFilter.new 8 (ShiftByInsertions.new 3)).add hash0 8 0
        ShiftByInsertions.ops helloB).add hash0 8 0 ShiftByInsertions.ops
        worldB).add hash0 8 0 ShiftByInsertions.ops fooB).add hash0 8 0
        ShiftByInsertions.ops barB).contains hash0 8 worldB = true ∧
      (((((RollingBloomFilter.new 8 (ShiftByInsertions.new 3)).add hash0 8 0
        ShiftByInsertions.ops helloB).add hash0 8 0 ShiftByInsertions.ops
        worldB).add hash0 8 0 ShiftByInsertions.ops fooB).add hash0 8 0
        ShiftByInsertions.ops barB).contains hash0 8 fooB = true ∧
      (((((RollingBloomFilter.new 8 (ShiftByInsertions.new 3)).add hash0 8 0
        ShiftByInsertions.ops helloB).add hash0 8 0 ShiftByInsertions.ops
        worldB).add hash0 8 0 ShiftByInsertions.ops fooB).add hash0 8 0
        ShiftByInsertions.ops barB).contains hash0 8 barB = true) :=
  ⟨rfl, C3_scenario_amended hash0 8 0 _ _ _ _ _ rfl rfl rfl rfl rfl⟩

/-- Counterexample for C3 as stated: with the concrete hash stand-in and `N = 4` as
in the repository's test, the state reached after adding `"hello"` and `"world"`
fires the shift on the next add — so the rotation happens on the add of `"foo"`,
the 3rd insertion — while the state after `"foo"` does not fire on the next add —
so no rotation happens on the add of `"bar"`, contradicting "rotation happens on
(and only on) the add of `"bar"`". -/
theorem C3_counterexample :
    condFires ShiftByInsertions.ops
      (((RollingBloomFilter.new 4 (ShiftByInsertions.new 3)).add hash0 4 0
        ShiftByInsertions.ops helloB).add hash0 4 0 ShiftByInsertions.ops
        worldB).shift_condition = true ∧
    condFires ShiftByInsertions.ops
      ((((RollingBloomFilter.new 4 (ShiftByInsertions.new 3)).add hash0 4 0
        ShiftByInsertions.ops helloB).add hash0 4 0 ShiftByInsertions.ops
        worldB).add hash0 4 0 ShiftByInsertions.ops fooB).shift_condition
          = false := by
  have s1 : ((RollingBloomFilter.new 4 (ShiftByInsertions.new 3)).add hash0 4 0
      ShiftByInsertions.ops helloB).shift_condition =
      (⟨3, 1⟩ : ShiftByInsertions) := by
    rw [RollingBloomFilter.shift_condition_add]; rfl
  have s2 : (((RollingBloomFilter.new 4 (ShiftByInsertions.new 3)).add hash0 4 0
      ShiftByInsertions.ops helloB).add hash0 4 0 ShiftByInsertions.ops
      worldB).shift_condition = (⟨3, 2⟩ : ShiftByInsertions) := by
    rw [RollingBloomFilter.shift_condition_add, s1]; rfl
  have s3 : ((((RollingBloomFilter.new 4 (ShiftByInsertions.new 3)).add hash0 4 0
      ShiftByInsertions.ops helloB).add hash0 4 0 ShiftByInsertions.ops
      worldB).add hash0 4 0 ShiftByInsertions.ops fooB).shift_condition =
      (⟨3, 0⟩ : ShiftByInsertions) := by
    rw [RollingBloomFilter.shift_condition_add, s2]; rfl
  exact ⟨by rw [s2]; rfl, by rw [s3]; rfl⟩

/-- C2 (amended): a value `V` added to a (well-formed) rolling filter stays contained
through any further call sequence that performs at most one shift — in particular up
to and including the end of the next full rotation cycle — and after two subsequent
shifts with nothing added in between, `contains(V)` returns false.  (With other
values added between the two shifts, `contains(V)` may still return true as a false
positive; see the counterexample to the claim as stated.) -/
theorem C2_retention_amended (hash128 : Bytes → Int → Nat) (N : Nat) (S : Int)
    {C : Type} (ops : ShiftOps C) (r : RollingBloomFilter C) (v : Bytes)
    (hw : r.Wf N) (hN : 0 < N) :
    (∀ l : List RollOp,
      shiftEvents ops r.shift_condition (RollOp.addValue v :: l) ≤ 1 →
      (r.applyOps hash128 N S ops (RollOp.addValue v :: l)).contains hash128 N v
        = true) ∧
    (((r.add hash128 N S ops v).shift N ops).shift N ops).contains hash128 N v
      = false := by
  constructor
  · intro l he
    rw [shiftEvents] at he
    have hstep : r.applyOps hash128 N S ops (RollOp.addValue v :: l) =
        (r.add hash128 N S ops v).applyOps hash128 N S ops l := rfl
    rw [hstep]
    have hc : (r.add hash128 N S ops v).shift_condition =
        condStep ops r.shift_condition :=
      RollingBloomFilter.shift_condition_add hash128 N S ops r v
    have h0 : HoldsIn hash128 N v (r.add hash128 N S ops v).filters.1 :=
      holdsIn_slot0_add hash128 N S ops r v hw
    by_cases hb : condFires ops r.shift_condition
    · have ht : shiftEvents ops (condStep ops r.shift_condition) l = 0 := by
        rw [hb] at he; simp at he; omega
      have h := roll_keep_slot0 hash128 N S ops v l (r.add hash128 N S ops v) h0
        (by rw [hc]; exact ht)
      rwa [holdsIn_iff_contains] at h
    · have hbf : condFires ops r.shift_condition = false := by simpa using hb
      have ht : shiftEvents ops (condStep ops r.shift_condition) l ≤ 1 := by
        rw [hbf] at he; simpa using he
      have h1 : HoldsIn hash128 N v (r.add hash128 N S ops v).filters.2 :=
        holdsIn_slot1_add_of_not_fires hash128 N S ops r v hw hbf
      have h := roll_keep_slots01 hash128 N S ops v l (r.add hash128 N S ops v)
        h0 h1 (by rw [hc]; exact ht)
      rwa [holdsIn_iff_contains] at h
  · show (((r.add hash128 N S ops v).shift N ops).shift N ops).filters.1.contains
      hash128 N v = false
    have h : (((r.add hash128 N S ops v).shift N ops).shift N ops).filters.1 =
        BloomFilter.new N := rfl
    rw [h]
    exact contains_new_false hash128 N hN v

/-- Witness for C2 (amended) at a concrete input: `"hello"` added to a fresh
limit-3 rolling filter survives one explicit shift, and is gone after two
back-to-back shifts. -/
theorem C2_retention_amended_witness :
    (RollingBloomFilter.new 8 (ShiftByInsertions.new 3)).Wf 8 ∧ 0 < 8 ∧
      shiftEvents ShiftByInsertions.ops
        (RollingBloomFilter.new 8 (ShiftByInsertions.new 3)).shift_condition
        [RollOp.addValue helloB, RollOp.doShift] ≤ 1 ∧
      ((RollingBloomFilter.new 8 (ShiftByInsertions.new 3)).applyOps hash0 8 0
        ShiftByInsertions.ops [RollOp.addValue helloB, RollOp.doShift]).contains
        hash0 8 helloB = true ∧
      ((((RollingBloomFilter.new 8 (ShiftByInsertions.new 3)).add hash0 8 0
        ShiftByInsertions.ops helloB).shift 8 ShiftByInsertions.ops).shift 8
        ShiftByInsertions.ops).contains hash0 8 helloB = false :=
  ⟨RollingBloomFilter.wf_of_new 8 (ShiftByInsertions.new 3), by decide, by decide,
   (C2_retention_amended hash0 8 0 ShiftByInsertions.ops
      (RollingBloomFilter.new 8 (ShiftByInsertions.new 3)) helloB
      (RollingBloomFilter.wf_of_new 8 (ShiftByInsertions.new 3)) (by decide)).1
     [RollOp.doShift] (by decide),
   (C2_retention_amended hash0 8 0 ShiftByInsertions.ops
      (RollingBloomFilter.new 8 (ShiftByInsertions.new 3)) helloB
      (RollingBloomFilter.wf_of_new 8 (ShiftByInsertions.new 3)) (by decide)).2⟩

/-- Counterexample for C2 as stated: under the concrete hash stand-in, the value
`[0]` is added, two shifts follow, `[0]` is never re-inserted — yet `contains([0])`
still returns true, because the distinct value `[1]` added between the shifts set
the same bits (a false positive).  "Guaranteed absent after two subsequent
rotations" therefore fails as an unconditional statement. -/
theorem C2_counterexample :
    ([0] : Bytes) ≠ [1] ∧
      (((((RollingBloomFilter.new 8 (ShiftByInsertions.new 100)).add hash0 8 0
        ShiftByInsertions.ops [0]).shift 8 ShiftByInsertions.ops).add hash0 8 0
        ShiftByInsertions.ops [1]).shift 8 ShiftByInsertions.ops).contains hash0 8
        [0] = true :=
  ⟨by decide, by decide⟩

/-- C6 (amended): for the duration strategy, an `add` processed while the elapsed
time since the last shift is at most the window `D` — in particular at exactly `D` —
fires no rotation (the condition state is untouched and both slots are just
dual-written), and an `add` processed strictly after `D` has elapsed fires the
rotation on that call (the timestamp is reset to the current instant, slot 0 becomes
the old slot 1 plus the new record, slot 1 becomes fresh). -/
theorem C6_duration_trigger_amended (hash128 : Bytes → Int → Nat) (N : Nat)
    (S : Int) (r : RollingBloomFilter ShiftByDuration) (v : Bytes) (now : Nat) :
    (now - r.shift_condition.last_shift ≤ r.shift_condition.duration →
      (r.add hash128 N S (ShiftByDuration.ops now) v).shift_condition
        = r.shift_condition ∧
      (r.add hash128 N S (ShiftByDuration.ops now) v).filters =
        (r.filters.1.add_hash (bloomHashFrom hash128 N S v),
         r.filters.2.add_hash (bloomHashFrom hash128 N S v))) ∧
    (now - r.shift_condition.last_shift > r.shift_condition.duration →
      (r.add hash128 N S (ShiftByDuration.ops now) v).shift_condition
        = ⟨r.shift_condition.duration, now⟩ ∧
      (r.add hash128 N S (ShiftByDuration.ops now) v).filters =
        (r.filters.2.add_hash (bloomHashFrom hash128 N S v),
         BloomFilter.new N)) := by
  constructor
  · intro h
    have hf : condFires (ShiftByDuration.ops now) r.shift_condition = false := by
      rw [condFires_duration]
      simp only [gt_iff_lt, decide_eq_false_iff_not, not_lt]
      omega
    constructor
    · rw [RollingBloomFilter.shift_condition_add, condStep_duration,
        if_neg (by omega)]
    · rw [RollingBloomFilter.filters_add, hf]
      simp
  · intro h
    have hf : condFires (ShiftByDuration.ops now) r.shift_condition = true := by
      rw [condFires_duration]
      simp only [gt_iff_lt, decide_eq_true_eq]
      omega
    constructor
    · rw [RollingBloomFilter.shift_condition_add, condStep_duration, if_pos h]
    · rw [RollingBloomFilter.filters_add, hf]
      simp

/-- Witness for C6 (amended) at a concrete input: window 5, construction at instant
0, an `add` at instant 3 (elapsed 3 ≤ 5) leaves the condition untouched and
dual-writes both slots; an `add` at instant 6 (elapsed 6 > 5) rotates. -/
theorem C6_duration_trigger_amended_witness :
    5 - (ShiftByDuration.new 0 5).last_shift ≤ (ShiftByDuration.new 0 5).duration ∧
      6 - (ShiftByDuration.new 0 5).last_shift > (ShiftByDuration.new 0 5).duration ∧
      (((RollingBloomFilter.new 8 (ShiftByDuration.new 0 5)).add hash0 8 0
          (ShiftByDuration.ops 5) helloB).shift_condition
        = (RollingBloomFilter.new 8 (ShiftByDuration.new 0 5)).shift_condition ∧
      ((RollingBloomFilter.new 8 (ShiftByDuration.new 0 5)).add hash0 8 0
          (ShiftByDuration.ops 5) helloB).filters =
        ((RollingBloomFilter.new 8 (ShiftByDuration.new 0 5)).filters.1.add_hash
            (bloomHashFrom hash0 8 0 helloB),
         (RollingBloomFilter.new 8 (ShiftByDuration.new 0 5)).filters.2.add_hash
            (bloomHashFrom hash0 8 0 helloB))) ∧
      (((RollingBloomFilter.new 8 (ShiftByDuration.new 0 5)).add hash0 8 0
          (ShiftByDuration.ops 6) helloB).shift_condition
        = ⟨(RollingBloomFilter.new 8
            (ShiftByDuration.new 0 5)).shift_condition.duration, 6⟩ ∧
      ((RollingBloomFilter.new 8 (ShiftByDuration.new 0 5)).add hash0 8 0
          (ShiftByDuration.ops 6) helloB).filters =
        ((RollingBloomFilter.new 8 (ShiftByDuration.new 0 5)).filters.2.add_hash
            (bloomHashFrom hash0 8 0 helloB),
         BloomFilter.new 8)) :=
  ⟨by decide, by decide,
   (C6_duration_trigger_amended hash0 8 0
      (RollingBloomFilter.new 8 (ShiftByDuration.new 0 5)) helloB 5).1 (by decide),
   (C6_duration_trigger_amended hash0 8 0
      (RollingBloomFilter.new 8 (ShiftByDuration.new 0 5)) helloB 6).2 (by decide)⟩

/-- Counterexample for C6 as stated: with window `D = 5` and the last shift at
instant 0, the `add` processed at instant 5 — exactly `D` elapsed — does NOT fire a
rotation: the condition's `should_shift` is `elapsed > duration`, which is strict,
so the timestamp stays 0 and slot 1 still holds the freshly inserted record (a
rotation would have replaced it with an all-false fresh filter).  The claim's
"in particular, when exactly D has elapsed" is therefore false on the code. -/
theorem C6_counterexample :
    ((RollingBloomFilter.new 8 (ShiftByDuration.new 0 5)).add hash0 8 0
      (ShiftByDuration.ops 5) helloB).shift_condition = ShiftByDuration.new 0 5 ∧
      condFires (ShiftByDuration.ops 5)
        (RollingBloomFilter.new 8 (ShiftByDuration.new 0 5)).shift_condition
          = false ∧
      ((RollingBloomFilter.new 8 (ShiftByDuration.new 0 5)).add hash0 8 0
        (ShiftByDuration.ops 5) helloB).filters.2.bits.getD 0 false = true :=
  ⟨by decide, by decide, by decide⟩

end Bloomfilter
